import Mathlib

/-!
Verification development for the i18n-search translation-catalog parser and
reverse-index builder (src/src/i18n/parser.ts) and the catalog lifecycle in
src/src/activate.ts.

The TypeScript AST consumed by the parser is embedded as a closed tagged
variant covering exactly the node shapes the source code distinguishes:
string literals, object literals, and "anything else" (carrying the numeric
`SyntaxKind` used in the diagnostic message).  Object-literal members carry
the shapes `ts.isPropertyAssignment`, `ts.isShorthandPropertyAssignment`,
`ts.isSpreadAssignment`, and the remaining member kinds (methods and
accessors, summarised as `methodProp`), with the property name being an
identifier, a string literal, a numeric literal, or a computed name.
Node positions are carried as 0-based (line, character) pairs, mirroring
`sourceFile.getLineAndCharacterOfPosition(node.getStart())`.

JavaScript objects used as maps (`TranslationMap`, `TranslationKeyMap`) are
embedded as insertion-ordered association lists: assigning to an existing
key updates it in place, assigning to a fresh key appends, matching the
enumeration order of `Object.entries` / `for..in`.
-/

namespace I18nSearch

/-- 0-based (line, character) of a node start, as produced by
`getLineAndCharacterOfPosition`. -/
abbrev Pos := Nat × Nat

/-- `interface ParseError` of parser.ts: message plus optional 1-based
line/column. -/
structure ParseError where
  message : String
  line : Option Nat := none
  column : Option Nat := none
deriving Repr, DecidableEq

/-- `interface TranslationMap`: translation value to the ordered list of keys
that map to it (insertion-ordered JS object). -/
abbrev TranslationMap := List (String × List String)

/-- `interface TranslationKeyMap`: dotted key path to its single value
(insertion-ordered JS object). -/
abbrev TranslationKeyMap := List (String × String)

/-- `interface ParsedTranslationFile` of parser.ts.  The same record also
serves as the accumulator threaded through `parseTranslationObject`. -/
structure ParsedTranslationFile where
  valueToKeys : TranslationMap
  keyToValue : TranslationKeyMap
  errors : List ParseError
deriving Repr, DecidableEq

/-- The name of an object-literal member: identifier, string literal,
numeric literal, or computed (`[expr]`). -/
inductive PropName where
  | ident (text : String)
  | strLitName (text : String)
  | numLitName (text : String)
  | computed
deriving Repr, DecidableEq

mutual
/-- Expression nodes distinguished by the traverser: `ts.isStringLiteral`,
`ts.isObjectLiteralExpression`, and every other kind (carrying its numeric
`SyntaxKind`). -/
inductive Expr where
  | strLit (text : String) (pos : Pos)
  | objLit (props : PropList) (pos : Pos)
  | otherExpr (kind : Nat) (pos : Pos)

/-- The member list of an object literal (`node.properties`). -/
inductive PropList where
  | nil
  | cons (head : ObjectProperty) (tail : PropList)

/-- One `ts.ObjectLiteralElementLike`.  `methodProp` stands for the member
kinds that are neither a property assignment, a shorthand assignment nor a
spread assignment (methods and accessors); the source only ever inspects
their `name`. -/
inductive ObjectProperty where
  | propAssign (name : PropName) (value : Expr) (pos : Pos)
  | shorthand (name : String) (pos : Pos)
  | spread (pos : Pos)
  | methodProp (name : PropName) (pos : Pos)
end

/-- One element of a `ts.NamedExports` clause: `propertyName` is the local
name before `as` (when present) and `name` the exported name. -/
structure ExportSpecifier where
  propertyName : Option String
  name : String
deriving Repr, DecidableEq

/-- One declaration of a `ts.VariableStatement`: `nameIdent` is `some` when
the binding name is a plain identifier. -/
structure VariableDeclaration where
  nameIdent : Option String
  initializer : Option Expr

/-- Top-level statements distinguished by `findDefaultExport`:
`ts.isExportAssignment` (a `export default <expr>` statement),
`ts.isVariableStatement`, `ts.isExportDeclaration` with named exports, and
everything else. -/
inductive Statement where
  | exportAssignment (expr : Expr)
  | variableStatement (decls : List VariableDeclaration)
  | exportDeclaration (specifiers : List ExportSpecifier)
  | otherStatement

/-- Does any top-level named-export clause contain a specifier whose exported
name is `default`?  This is the exact check the inner loops of
`findDefaultExport` perform for each candidate declaration (the check does
not depend on the candidate). -/
def hasDefaultSpecifier (stmts : List Statement) : Bool :=
  stmts.any fun s =>
    match s with
    | .exportDeclaration specs => specs.any (fun sp => sp.name == "default")
    | _ => false

/-- The first declaration of a variable statement that has an initializer and
an identifier binding name (`declaration.initializer &&
ts.isIdentifier(declaration.name)`), returning its initializer. -/
def firstEligibleDecl (decls : List VariableDeclaration) : Option Expr :=
  match decls with
  | [] => none
  | d :: rest =>
    match d.initializer, d.nameIdent with
    | some init, some _ => some init
    | _, _ => firstEligibleDecl rest

/-- The statement scan of `findDefaultExport` (parser.ts lines 109-142):
`allStmts` is the full statement list of the source file, over which the
named-export check ranges, while the second argument is the remaining
statements of the outer loop. -/
def findDefaultExportFrom (allStmts : List Statement) : List Statement → Option Expr
  | [] => none
  | s :: rest =>
    match s with
    | .exportAssignment e => some e
    | .variableStatement decls =>
      if hasDefaultSpecifier allStmts then
        match firstEligibleDecl decls with
        | some init => some init
        | none => findDefaultExportFrom allStmts rest
      else findDefaultExportFrom allStmts rest
    | _ => findDefaultExportFrom allStmts rest

/-- `findDefaultExport` of parser.ts. -/
def findDefaultExport (stmts : List Statement) : Option Expr :=
  findDefaultExportFrom stmts stmts

/-- `valueToKeys[value].push(key)`, creating the slot if absent: appends `key`
to the bucket of `value`, or appends a fresh singleton bucket. -/
def pushValueKey : TranslationMap → String → String → TranslationMap
  | [], v, k => [(v, [k])]
  | (v', ks) :: rest, v, k =>
    if v' == v then (v', ks ++ [k]) :: rest else (v', ks) :: pushValueKey rest v k

/-- `keyToValue[key] = value`: overwrites in place, or appends a fresh entry. -/
def setKey : TranslationKeyMap → String → String → TranslationKeyMap
  | [], k, v => [(k, v)]
  | (k', v') :: rest, k, v =>
    if k' == k then (k, v) :: rest else (k', v') :: setKey rest k v

/-- `addTranslation` of parser.ts (lines 235-249). -/
def addTranslation (value key : String) (acc : ParsedTranslationFile) : ParsedTranslationFile :=
  { acc with
    valueToKeys := pushValueKey acc.valueToKeys value key,
    keyToValue := setKey acc.keyToValue key value }

/-- A diagnostic at a node position: the source adds 1 to the 0-based line
and character. -/
def diagAt (msg : String) (p : Pos) : ParseError :=
  { message := msg, line := some (p.1 + 1), column := some (p.2 + 1) }

mutual
/-- `parseTranslationObject` of parser.ts (lines 144-233), with the
accumulated maps and error list threaded as a `ParsedTranslationFile`. -/
def parseTranslationObject (node : Expr) (pre : String) (acc : ParsedTranslationFile) :
    ParsedTranslationFile :=
  match node with
  | .objLit props _ => parseProperties props pre acc
  | .strLit text _ => addTranslation text pre acc
  | .otherExpr kind p =>
    { acc with
      errors := acc.errors ++
        [diagAt ("Unexpected node type in translation object: " ++ toString kind) p] }

/-- The `for (const property of node.properties)` loop. -/
def parseProperties (props : PropList) (pre : String) (acc : ParsedTranslationFile) :
    ParsedTranslationFile :=
  match props with
  | .nil => acc
  | .cons prop rest => parseProperties rest pre (parseProperty prop pre acc)

/-- The body of the property loop: the if/else-if chain over one object
member.  Property assignments whose name is a string or numeric literal, and
method-like members whose name is not computed, match none of the branches
and fall through silently. -/
def parseProperty (prop : ObjectProperty) (pre : String) (acc : ParsedTranslationFile) :
    ParsedTranslationFile :=
  match prop with
  | .propAssign (.ident key) value p =>
    let fullKey := if pre == "" then key else pre ++ "." ++ key
    (match value with
     | .strLit text _ => addTranslation text fullKey acc
     | .objLit props vp => parseTranslationObject (.objLit props vp) fullKey acc
     | .otherExpr _ _ =>
       { acc with
         errors := acc.errors ++
           [diagAt ("Invalid translation value for key \x27" ++ fullKey ++
             "\x27: must be string or object") p] })
  | .shorthand _ p =>
    { acc with
      errors := acc.errors ++
        [diagAt "Shorthand properties not supported in translation objects" p] }
  | .spread p =>
    { acc with
      errors := acc.errors ++
        [diagAt "Spread assignments not supported in translation objects" p] }
  | .propAssign .computed _ p =>
    { acc with
      errors := acc.errors ++
        [diagAt "Computed property names not supported in translation objects" p] }
  | .methodProp .computed p =>
    { acc with
      errors := acc.errors ++
        [diagAt "Computed property names not supported in translation objects" p] }
  | .propAssign (.strLitName _) _ _ => acc
  | .propAssign (.numLitName _) _ _ => acc
  | .methodProp _ _ => acc
end

/-- `parseContent` of parser.ts (lines 58-107), taken at the syntax tree
produced by `ts.createSourceFile` (a deterministic, non-throwing parse whose
text-to-tree step is left abstract). -/
def parseContent (stmts : List Statement) : ParsedTranslationFile :=
  match findDefaultExport stmts with
  | none =>
    { valueToKeys := [], keyToValue := [],
      errors := [{ message := "No default export found in translation file" }] }
  | some defaultExport =>
    parseTranslationObject defaultExport ""
      { valueToKeys := [], keyToValue := [], errors := [] }

/-- A `vscode.WorkspaceFolder`, reduced to the `uri.fsPath` the source reads. -/
structure WorkspaceFolder where
  fsPath : String

/-- `vscode.workspace`: `workspaceFolders` is `undefined` or a list. -/
structure VSCodeWorkspace where
  workspaceFolders : Option (List WorkspaceFolder)

/-- The file system as seen through `fs.existsSync` / `fs.readFileSync`:
a path-to-content table; a path outside the table does not exist. -/
structure FileSystemModel where
  files : List (String × String)

/-- `path.resolve(root, rel)`, modelled as abstract path joining. -/
def pathResolve (root rel : String) : String := root ++ "/" ++ rel

/-- Content of the file at `p`, or `none` when `fs.existsSync` is false. -/
def lookupFile (fsm : FileSystemModel) (p : String) : Option String :=
  (fsm.files.find? (fun entry => entry.1 == p)).map (fun entry => entry.2)

/-- The catch-all result of `parseTranslationFile`: empty maps plus the single
diagnostic built from the thrown error (a JS `Error` stringifies as
`Error: <message>`). -/
def failedParseResult (err : String) : ParsedTranslationFile :=
  { valueToKeys := [], keyToValue := [],
    errors := [{ message := "Failed to parse translation file: " ++ err }] }

/-- `parseTranslationFile` of parser.ts (lines 33-56).  `createSourceFile`
stands for the deterministic TypeScript grammar reader turning file content
into top-level statements; each `throw` inside the `try` block lands in the
catch that returns `failedParseResult`. -/
def parseTranslationFile (ws : VSCodeWorkspace) (fsm : FileSystemModel)
    (createSourceFile : String → List Statement) (filePath : String) : ParsedTranslationFile :=
  match ws.workspaceFolders with
  | none => failedParseResult "Error: No workspace folder found"
  | some [] => failedParseResult "Error: No workspace folder found"
  | some (folder :: _) =>
    let absPath := pathResolve folder.fsPath filePath
    match lookupFile fsm absPath with
    | none => failedParseResult ("Error: Translation file not found: " ++ absPath)
    | some content => parseContent (createSourceFile content)

/-- `interface ValidationResult` of parser.ts. -/
structure ValidationResult where
  warnings : List String
  errors : List String
deriving Repr, DecidableEq

/-- `Object.entries(parsed.valueToKeys).filter(([, keys]) => keys.length > 1)`. -/
def duplicateValueEntries (parsed : ParsedTranslationFile) : TranslationMap :=
  parsed.valueToKeys.filter (fun entry => entry.2.length > 1)

/-- `duplicateValues.map(([value]) => `"$\x7bvalue\x7d"`).join(", ")`: the
warning quotes the duplicated values only, never their keys. -/
def quoteJoin (entries : TranslationMap) : String :=
  String.intercalate ", " (entries.map (fun entry => "\"" ++ entry.1 ++ "\""))

/-- The duplicate-value warning block of `validateTranslationFile`. -/
def duplicateValueWarnings (parsed : ParsedTranslationFile) : List String :=
  if (duplicateValueEntries parsed).length > 0 then
    ["Found " ++ toString (duplicateValueEntries parsed).length ++
      " duplicate translation values: " ++ quoteJoin (duplicateValueEntries parsed)]
  else []

/-- Drop leading whitespace characters from a character list. -/
def dropLeadingWS : List Char → List Char
  | [] => []
  | c :: rest => if c.isWhitespace then dropLeadingWS rest else c :: rest

/-- `value.trim()` of JavaScript: remove surrounding whitespace (modelled
structurally over the character list so it is executable by the kernel). -/
def jsTrim (s : String) : String :=
  String.mk (dropLeadingWS (dropLeadingWS s.data.reverse).reverse)

/-- `Object.entries(parsed.keyToValue).filter(([, value]) => value.trim() === "")`. -/
def emptyValueEntries (parsed : ParsedTranslationFile) : TranslationKeyMap :=
  parsed.keyToValue.filter (fun entry => jsTrim entry.2 == "")

/-- The empty-value warning block of `validateTranslationFile`. -/
def emptyValueWarnings (parsed : ParsedTranslationFile) : List String :=
  if (emptyValueEntries parsed).length > 0 then
    ["Found " ++ toString (emptyValueEntries parsed).length ++
      " empty translation values: " ++
      String.intercalate ", " ((emptyValueEntries parsed).map (fun entry => entry.1))]
  else []

/-- `Object.entries(parsed.keyToValue).filter(([, value]) => value.length > 200)`. -/
def longValueEntries (parsed : ParsedTranslationFile) : TranslationKeyMap :=
  parsed.keyToValue.filter (fun entry => entry.2.length > 200)

/-- The long-value warning block of `validateTranslationFile`. -/
def longValueWarnings (parsed : ParsedTranslationFile) : List String :=
  if (longValueEntries parsed).length > 0 then
    ["Found " ++ toString (longValueEntries parsed).length ++
      " very long translation values (>200 chars)"]
  else []

/-- `validateTranslationFile` of parser.ts (lines 251-290): three warning
blocks in order, and an always-empty error list. -/
def validateTranslationFile (parsed : ParsedTranslationFile) : ValidationResult :=
  { warnings :=
      duplicateValueWarnings parsed ++ emptyValueWarnings parsed ++ longValueWarnings parsed,
    errors := [] }

mutual
/-- A JavaScript value as classified by `flatten` in activate.ts: a string,
an object (insertion-ordered own properties), or anything else (numbers,
booleans, null, ... which `flatten` skips). -/
inductive JSValue where
  | jstr (s : String)
  | jobj (props : JSProps)
  | jother

/-- The own properties of a JS object in `for..in` order. -/
inductive JSProps where
  | nil
  | cons (key : String) (value : JSValue) (rest : JSProps)
end

mutual
/-- `flatten(obj, prefix)` of `loadTranslations` (activate.ts lines 589-600),
accumulating into the value-to-keys map. -/
def flattenInto (v : JSValue) (pre : String) (m : TranslationMap) : TranslationMap :=
  match v with
  | .jstr s => pushValueKey m s pre
  | .jobj props => flattenProps props pre m
  | .jother => m

/-- The `for (const key in obj)` loop of `flatten`. -/
def flattenProps (props : JSProps) (pre : String) (m : TranslationMap) : TranslationMap :=
  match props with
  | .nil => m
  | .cons key value rest =>
    flattenProps rest pre (flattenInto value (if pre == "" then key else pre ++ "." ++ key) m)
end

/-- `loadTranslations` of activate.ts (lines 558-610).  The regex match
`export\s+default\s+(...)`, `parseObjectLiteral`, and the object type check
are abstracted into `extractDefaultObject`, which returns `none` when any of
them fails; every failure inside the `try` block is caught and turned into
the empty map. -/
def loadTranslations (ws : VSCodeWorkspace) (fsm : FileSystemModel)
    (extractDefaultObject : String → Option JSValue) (filePath : String) : TranslationMap :=
  match ws.workspaceFolders with
  | none => []
  | some [] => []
  | some (folder :: _) =>
    match lookupFile fsm (pathResolve folder.fsPath filePath) with
    | none => []
    | some content =>
      match extractDefaultObject content with
      | none => []
      | some v => flattenInto v "" []

/-- The `watcher.onDidChange` handler of `setupFileWatcher` (activate.ts
lines 712-723): it assigns `translationMap = await loadTranslations(...)`
unconditionally, so the previously published map is not consulted. -/
def onTranslationFileChange (_previousMap : TranslationMap) (ws : VSCodeWorkspace)
    (fsm : FileSystemModel) (extractDefaultObject : String → Option JSValue)
    (filePath : String) : TranslationMap :=
  loadTranslations ws fsm extractDefaultObject filePath

/-- Number of occurrences of key `k` in one bucket. -/
def countKey (ks : List String) (k : String) : Nat :=
  (ks.filter (fun x => x == k)).length

/-- `sum(len(v) for v in ValueToKeys.values())`: the total number of entries
across all buckets. -/
def totalEntries (m : TranslationMap) : Nat :=
  (m.map (fun entry => entry.2.length)).sum

/-- Total number of occurrences of key `k` across all buckets. -/
def keyOccurrences (m : TranslationMap) (k : String) : Nat :=
  (m.map (fun entry => countKey entry.2 k)).sum

/-- Number of buckets in which key `k` occurs at least once. -/
def bucketsContaining (m : TranslationMap) (k : String) : Nat :=
  (m.filter (fun entry => countKey entry.2 k != 0)).length

/-- Does the key map contain an entry for `k`? -/
def hasKey (km : TranslationKeyMap) (k : String) : Bool :=
  km.any (fun entry => entry.1 == k)

mutual
/-- The (value, dotted key) leaves the traverser accepts from a node, in
depth-first left-to-right order. -/
def leavesOf (node : Expr) (pre : String) : List (String × String) :=
  match node with
  | .objLit props _ => leavesOfProps props pre
  | .strLit text _ => [(text, pre)]
  | .otherExpr _ _ => []

/-- Accepted leaves of a member list. -/
def leavesOfProps (props : PropList) (pre : String) : List (String × String) :=
  match props with
  | .nil => []
  | .cons prop rest => leavesOfProp prop pre ++ leavesOfProps rest pre

/-- Accepted leaves of one object member. -/
def leavesOfProp (prop : ObjectProperty) (pre : String) : List (String × String) :=
  match prop with
  | .propAssign (.ident key) value _ =>
    let fullKey := if pre == "" then key else pre ++ "." ++ key
    (match value with
     | .strLit text _ => [(text, fullKey)]
     | .objLit props vp => leavesOf (.objLit props vp) fullKey
     | .otherExpr _ _ => [])
  | _ => []
end

mutual
/-- The diagnostics the traverser records for a node, in depth-first
left-to-right order. -/
def diagsOf (node : Expr) (pre : String) : List ParseError :=
  match node with
  | .objLit props _ => diagsOfProps props pre
  | .strLit _ _ => []
  | .otherExpr kind p =>
    [diagAt ("Unexpected node type in translation object: " ++ toString kind) p]

/-- Diagnostics of a member list. -/
def diagsOfProps (props : PropList) (pre : String) : List ParseError :=
  match props with
  | .nil => []
  | .cons prop rest => diagsOfProp prop pre ++ diagsOfProps rest pre

/-- Diagnostics of one object member, mirroring the branch structure of
`parseProperty`. -/
def diagsOfProp (prop : ObjectProperty) (pre : String) : List ParseError :=
  match prop with
  | .propAssign (.ident key) value p =>
    let fullKey := if pre == "" then key else pre ++ "." ++ key
    (match value with
     | .strLit _ _ => []
     | .objLit props vp => diagsOf (.objLit props vp) fullKey
     | .otherExpr _ _ =>
       [diagAt ("Invalid translation value for key \x27" ++ fullKey ++
         "\x27: must be string or object") p])
  | .shorthand _ p =>
    [diagAt "Shorthand properties not supported in translation objects" p]
  | .spread p =>
    [diagAt "Spread assignments not supported in translation objects" p]
  | .propAssign .computed _ p =>
    [diagAt "Computed property names not supported in translation objects" p]
  | .methodProp .computed p =>
    [diagAt "Computed property names not supported in translation objects" p]
  | .propAssign (.strLitName _) _ _ => []
  | .propAssign (.numLitName _) _ _ => []
  | .methodProp _ _ => []
end

/-- Folding `addTranslation` over a leaf list, in traversal order. -/
def addLeaves (ls : List (String × String)) (acc : ParsedTranslationFile) :
    ParsedTranslationFile :=
  ls.foldl (fun a l => addTranslation l.1 l.2 a) acc

/-- The dotted key paths of the leaves accepted from the default export of a
source file (empty when no default export is found). -/
def parsedLeafKeys (stmts : List Statement) : List String :=
  match findDefaultExport stmts with
  | none => []
  | some e => (leavesOf e "").map (fun l => l.2)

/-- Does `needle` start `haystack`? -/
def leadsWith : List Char → List Char → Bool
  | [], _ => true
  | _ :: _, [] => false
  | a :: as, b :: bs => a == b && leadsWith as bs

/-- Does `needle` occur contiguously inside `haystack`? -/
def occursWithin (needle : List Char) : List Char → Bool
  | [] => needle.isEmpty
  | c :: rest => leadsWith needle (c :: rest) || occursWithin needle rest

/-- Substring check on strings. -/
def strContains (haystack needle : String) : Bool :=
  occursWithin needle.toList haystack.toList

/-- `export default { a: "X", a: "Y" }`: the same dotted key path assigned
twice in one source file. -/
def sampleDupKeyStmts : List Statement :=
  [.exportAssignment (.objLit
    (.cons (.propAssign (.ident "a") (.strLit "X" (0, 19)) (0, 16))
      (.cons (.propAssign (.ident "a") (.strLit "Y" (0, 28)) (0, 25)) .nil)) (0, 15))]

/-- `export default { a: "X" }` (spec scenario 1): all leaf paths distinct. -/
def sampleDistinctStmts : List Statement :=
  [.exportAssignment (.objLit
    (.cons (.propAssign (.ident "a") (.strLit "X" (0, 20)) (0, 17)) .nil) (0, 15))]

/-- `const a = "A"; const b = "B"; export \x7b b as default \x7d;`:
the named export re-exports `b` as `default`, yet `a` is the first variable
declaration with an initializer. -/
def reExportStmts : List Statement :=
  [.variableStatement [{ nameIdent := some "a", initializer := some (.strLit "A" (0, 10)) }],
   .variableStatement [{ nameIdent := some "b", initializer := some (.strLit "B" (1, 10)) }],
   .exportDeclaration [{ propertyName := some "b", name := "default" }]]

/-- `export default { a, b: "y" }` (spec scenario 3): a shorthand property
followed by an accepted string leaf. -/
def shorthandExampleStmts : List Statement :=
  [.exportAssignment (.objLit
    (.cons (.shorthand "a" (0, 17))
      (.cons (.propAssign (.ident "b") (.strLit "y" (0, 23)) (0, 20)) .nil)) (0, 15))]

/-- `export default { "a": 1 }`: a property assignment whose name is a string
literal and whose value is neither a string nor an object (SyntaxKind 9 is a
numeric literal). -/
def strLitNamePropStmts : List Statement :=
  [.exportAssignment (.objLit
    (.cons (.propAssign (.strLitName "a") (.otherExpr 9 (0, 23)) (0, 16)) .nil) (0, 15))]

/-- The parsed catalog of spec scenario 2: one value `Hi` shared by the two
keys `common.hello` and `common.bye`. -/
def dupValueParsed : ParsedTranslationFile :=
  { valueToKeys := [("Hi", ["common.hello", "common.bye"])],
    keyToValue := [("common.hello", "Hi"), ("common.bye", "Hi")],
    errors := [] }

/-- The parser-state invariant relating the two maps: total bucket entries
equal the number of keys, and every key of the key map occurs exactly once
across all buckets while absent keys occur zero times. -/
def mapsInv (acc : ParsedTranslationFile) : Prop :=
  totalEntries acc.valueToKeys = acc.keyToValue.length ∧
  ∀ k, keyOccurrences acc.valueToKeys k = (if hasKey acc.keyToValue k then 1 else 0)

theorem addLeaves_append (l1 l2 : List (String × String)) (acc : ParsedTranslationFile) :
    addLeaves (l1 ++ l2) acc = addLeaves l2 (addLeaves l1 acc) := by
  simp [addLeaves, List.foldl_append]

theorem addTranslation_setErrors (v k : String) (acc : ParsedTranslationFile)
    (e : List ParseError) :
    addTranslation v k { acc with errors := e } = { addTranslation v k acc with errors := e } := rfl

theorem addLeaves_setErrors (ls : List (String × String)) (acc : ParsedTranslationFile)
    (e : List ParseError) :
    addLeaves ls { acc with errors := e } = { addLeaves ls acc with errors := e } := by
  induction ls generalizing acc with
  | nil => rfl
  | cons l rest ih =>
    simp only [addLeaves, List.foldl_cons] at *
    rw [addTranslation_setErrors, ih]

theorem addLeaves_errors (ls : List (String × String)) (acc : ParsedTranslationFile) :
    (addLeaves ls acc).errors = acc.errors := by
  induction ls generalizing acc with
  | nil => rfl
  | cons l rest ih =>
    simp only [addLeaves, List.foldl_cons] at *
    rw [ih]
    rfl

mutual
theorem parseTranslationObject_decomp (node : Expr) (pre : String)
    (acc : ParsedTranslationFile) :
    parseTranslationObject node pre acc =
      { addLeaves (leavesOf node pre) acc with errors := acc.errors ++ diagsOf node pre } := by
  cases node with
  | strLit text p =>
    simp [parseTranslationObject, leavesOf, diagsOf, addLeaves, addTranslation]
  | objLit props p =>
    simp only [parseTranslationObject, leavesOf, diagsOf]
    exact parseProperties_decomp props pre acc
  | otherExpr kind p =>
    simp [parseTranslationObject, leavesOf, diagsOf, addLeaves]

theorem parseProperties_decomp (props : PropList) (pre : String)
    (acc : ParsedTranslationFile) :
    parseProperties props pre acc =
      { addLeaves (leavesOfProps props pre) acc with
        errors := acc.errors ++ diagsOfProps props pre } := by
  cases props with
  | nil => simp [parseProperties, leavesOfProps, diagsOfProps, addLeaves]
  | cons prop rest =>
    simp only [parseProperties, leavesOfProps, diagsOfProps]
    rw [parseProperty_decomp prop pre acc, parseProperties_decomp rest pre _]
    rw [addLeaves_setErrors]
    simp [addLeaves_append, addLeaves_errors]

theorem parseProperty_decomp (prop : ObjectProperty) (pre : String)
    (acc : ParsedTranslationFile) :
    parseProperty prop pre acc =
      { addLeaves (leavesOfProp prop pre) acc with
        errors := acc.errors ++ diagsOfProp prop pre } := by
  cases prop with
  | propAssign name value p =>
    cases name with
    | ident key =>
      cases value with
      | strLit text vp =>
        simp [parseProperty, leavesOfProp, diagsOfProp, addLeaves, addTranslation]
      | objLit vprops vp =>
        simp only [parseProperty, leavesOfProp, diagsOfProp]
        exact parseTranslationObject_decomp (.objLit vprops vp) _ acc
      | otherExpr kind vp =>
        simp [parseProperty, leavesOfProp, diagsOfProp, addLeaves]
    | strLitName s => simp [parseProperty, leavesOfProp, diagsOfProp, addLeaves]
    | numLitName s => simp [parseProperty, leavesOfProp, diagsOfProp, addLeaves]
    | computed => simp [parseProperty, leavesOfProp, diagsOfProp, addLeaves]
  | shorthand name p => simp [parseProperty, leavesOfProp, diagsOfProp, addLeaves]
  | spread p => simp [parseProperty, leavesOfProp, diagsOfProp, addLeaves]
  | methodProp name p =>
    cases name with
    | ident s => simp [parseProperty, leavesOfProp, diagsOfProp, addLeaves]
    | strLitName s => simp [parseProperty, leavesOfProp, diagsOfProp, addLeaves]
    | numLitName s => simp [parseProperty, leavesOfProp, diagsOfProp, addLeaves]
    | computed => simp [parseProperty, leavesOfProp, diagsOfProp, addLeaves]
end

theorem parseContent_some (stmts : List Statement) (e : Expr)
    (h : findDefaultExport stmts = some e) :
    parseContent stmts =
      { addLeaves (leavesOf e "") { valueToKeys := [], keyToValue := [], errors := [] } with
        errors := diagsOf e "" } := by
  simp [parseContent, h, parseTranslationObject_decomp]

theorem totalEntries_pushValueKey (m : TranslationMap) (v k : String) :
    totalEntries (pushValueKey m v k) = totalEntries m + 1 := by
  induction m with
  | nil => simp [pushValueKey, totalEntries]
  | cons entry rest ih =>
    obtain ⟨v', ks⟩ := entry
    by_cases h : (v' == v) = true
    · simp [pushValueKey, h, totalEntries]
      omega
    · simp only [pushValueKey, h, if_false, Bool.false_eq_true, totalEntries, List.map_cons,
        List.sum_cons] at *
      omega

theorem countKey_append (ks1 ks2 : List String) (q : String) :
    countKey (ks1 ++ ks2) q = countKey ks1 q + countKey ks2 q := by
  simp [countKey, List.filter_append]

theorem keyOccurrences_pushValueKey (m : TranslationMap) (v k q : String) :
    keyOccurrences (pushValueKey m v k) q =
      keyOccurrences m q + (if (k == q) = true then 1 else 0) := by
  induction m with
  | nil =>
    simp only [pushValueKey, keyOccurrences, List.map_cons, List.map_nil, List.sum_cons,
      List.sum_nil, countKey]
    by_cases h : (k == q) = true <;> simp [h]
  | cons entry rest ih =>
    obtain ⟨v', ks⟩ := entry
    by_cases h : (v' == v) = true
    · simp only [pushValueKey, h, if_true, keyOccurrences, List.map_cons, List.sum_cons,
        countKey_append]
      have : countKey [k] q = (if (k == q) = true then 1 else 0) := by
        by_cases hk : (k == q) = true <;> simp [countKey, hk]
      rw [this]
      omega
    · simp only [pushValueKey, h, if_false, Bool.false_eq_true, keyOccurrences, List.map_cons,
        List.sum_cons] at *
      omega

theorem hasKey_setKey (km : TranslationKeyMap) (k v q : String) :
    hasKey (setKey km k v) q = (hasKey km q || k == q) := by
  induction km with
  | nil => simp [setKey, hasKey]
  | cons entry rest ih =>
    obtain ⟨k', v'⟩ := entry
    by_cases h : (k' == k) = true
    · have hk : k' = k := by simpa using h
      subst hk
      simp [setKey, hasKey, Bool.or_assoc, Bool.or_comm]
    · simp only [setKey, h, if_false, Bool.false_eq_true, hasKey, List.any_cons] at *
      rw [ih]
      simp [Bool.or_assoc]

theorem length_setKey (km : TranslationKeyMap) (k v : String) :
    (setKey km k v).length = if hasKey km k then km.length else km.length + 1 := by
  induction km with
  | nil => simp [setKey, hasKey]
  | cons entry rest ih =>
    obtain ⟨k', v'⟩ := entry
    by_cases h : (k' == k) = true
    · simp [setKey, hasKey, h]
    · simp only [setKey, h, if_false, Bool.false_eq_true, hasKey, List.any_cons,
        List.length_cons] at *
      rw [ih]
      by_cases hk : hasKey rest k = true
      · simp [hasKey] at hk
        simp [h, hk, hasKey]
      · simp [hasKey] at hk
        simp [h, hk, hasKey]

theorem hasKey_addTranslation (acc : ParsedTranslationFile) (v k q : String) :
    hasKey (addTranslation v k acc).keyToValue q = (hasKey acc.keyToValue q || k == q) := by
  simp [addTranslation, hasKey_setKey]

theorem mapsInv_addTranslation (acc : ParsedTranslationFile) (v k : String)
    (h : mapsInv acc) (hk : hasKey acc.keyToValue k = false) :
    mapsInv (addTranslation v k acc) := by
  obtain ⟨h1, h2⟩ := h
  constructor
  · show totalEntries (pushValueKey acc.valueToKeys v k) = (setKey acc.keyToValue k v).length
    rw [totalEntries_pushValueKey, length_setKey, hk]
    simp [h1]
  · intro q
    show keyOccurrences (pushValueKey acc.valueToKeys v k) q = _
    rw [keyOccurrences_pushValueKey, h2 q]
    rw [show (addTranslation v k acc).keyToValue = setKey acc.keyToValue k v from rfl]
    rw [hasKey_setKey]
    by_cases hq : (k == q) = true
    · have : k = q := by simpa using hq
      subst this
      simp [hk, hq]
    · simp [hq]

theorem mapsInv_addLeaves (ls : List (String × String)) (acc : ParsedTranslationFile)
    (h : mapsInv acc)
    (hdisj : ∀ q ∈ ls.map (fun l => l.2), hasKey acc.keyToValue q = false)
    (hnd : (ls.map (fun l => l.2)).Nodup) :
    mapsInv (addLeaves ls acc) := by
  induction ls generalizing acc with
  | nil => exact h
  | cons l rest ih =>
    simp only [addLeaves, List.foldl_cons]
    simp only [List.map_cons, List.nodup_cons] at hnd
    have hl : hasKey acc.keyToValue l.2 = false := hdisj l.2 (by simp)
    apply ih (addTranslation l.1 l.2 acc)
    · exact mapsInv_addTranslation acc l.1 l.2 h hl
    · intro q hq
      rw [hasKey_addTranslation]
      have hq0 : hasKey acc.keyToValue q = false := hdisj q (by simp [hq])
      have hne : ¬(l.2 == q) = true := by
        simp only [beq_iff_eq]
        intro heq
        exact hnd.1 (heq ▸ hq)
      simp [hq0, hne]
    · exact hnd.2

theorem keyOccurrences_cons (entry : String × List String) (rest : TranslationMap)
    (k : String) :
    keyOccurrences (entry :: rest) k = countKey entry.2 k + keyOccurrences rest k := by
  simp [keyOccurrences]

theorem bucketsContaining_cons (entry : String × List String) (rest : TranslationMap)
    (k : String) :
    bucketsContaining (entry :: rest) k =
      (if countKey entry.2 k = 0 then 0 else 1) + bucketsContaining rest k := by
  by_cases h : countKey entry.2 k = 0
  · simp [bucketsContaining, List.filter_cons, h]
  · simp [bucketsContaining, List.filter_cons, h]
    omega

theorem bucketsContaining_of_occ_zero (m : TranslationMap) (k : String)
    (h : keyOccurrences m k = 0) : bucketsContaining m k = 0 := by
  induction m with
  | nil => rfl
  | cons entry rest ih =>
    rw [keyOccurrences_cons] at h
    have h1 : countKey entry.2 k = 0 := by omega
    have h2 : keyOccurrences rest k = 0 := by omega
    rw [bucketsContaining_cons, h1, ih h2]
    simp

theorem bucketsContaining_of_occ_one (m : TranslationMap) (k : String)
    (h : keyOccurrences m k = 1) : bucketsContaining m k = 1 := by
  induction m with
  | nil => simp [keyOccurrences] at h
  | cons entry rest ih =>
    rw [keyOccurrences_cons] at h
    rw [bucketsContaining_cons]
    by_cases hc : countKey entry.2 k = 0
    · have h2 : keyOccurrences rest k = 1 := by omega
      rw [ih h2]
      simp [hc]
    · have h2 : keyOccurrences rest k = 0 := by omega
      rw [bucketsContaining_of_occ_zero rest k h2]
      simp [hc]

theorem hasKey_of_mem (km : TranslationKeyMap) (entry : String × String)
    (he : entry ∈ km) : hasKey km entry.1 = true := by
  simp only [hasKey, List.any_eq_true]
  exact ⟨entry, he, by simp⟩

theorem mapsInv_empty : mapsInv { valueToKeys := [], keyToValue := [], errors := [] } := by
  constructor
  · rfl
  · intro k
    rfl

/-- Claim C1 (amended): for every catalog parsed by `parseContent` in which
no dotted key path is produced more than once by the accepted leaves, the
total number of entries across all `ValueToKeys` buckets equals the number of
keys in `KeyToValue`, and every key present in `KeyToValue` occurs in exactly
one `ValueToKeys` bucket.  (When the same dotted key path is assigned more
than once, the invariant fails; see the counterexample.) -/
theorem c1_bucket_sum_invariant (stmts : List Statement)
    (h : (parsedLeafKeys stmts).Nodup) :
    totalEntries (parseContent stmts).valueToKeys = (parseContent stmts).keyToValue.length ∧
    ∀ entry ∈ (parseContent stmts).keyToValue,
      bucketsContaining (parseContent stmts).valueToKeys entry.1 = 1 := by
  cases hfd : findDefaultExport stmts with
  | none =>
    constructor
    · simp [parseContent, hfd, totalEntries]
    · intro entry hmem
      simp [parseContent, hfd] at hmem
  | some e =>
    have hL : ((leavesOf e "").map (fun l => l.2)).Nodup := by
      unfold parsedLeafKeys at h
      rw [hfd] at h
      exact h
    have hinv :
        mapsInv (addLeaves (leavesOf e "")
          { valueToKeys := [], keyToValue := [], errors := [] }) := by
      apply mapsInv_addLeaves _ _ mapsInv_empty _ hL
      intro q _
      rfl
    obtain ⟨h1, h2⟩ := hinv
    rw [parseContent_some stmts e hfd]
    constructor
    · exact h1
    · intro entry hmem
      have hk := hasKey_of_mem _ entry hmem
      have := h2 entry.1
      rw [hk] at this
      simp only [if_true] at this
      exact bucketsContaining_of_occ_one _ _ this

/-- Witness for C1 at `export default { a: "X" }`. -/
theorem c1_bucket_sum_invariant_witness :
    (parsedLeafKeys sampleDistinctStmts).Nodup ∧
    (totalEntries (parseContent sampleDistinctStmts).valueToKeys =
        (parseContent sampleDistinctStmts).keyToValue.length ∧
      ∀ entry ∈ (parseContent sampleDistinctStmts).keyToValue,
        bucketsContaining (parseContent sampleDistinctStmts).valueToKeys entry.1 = 1) :=
  ⟨by decide, c1_bucket_sum_invariant sampleDistinctStmts (by decide)⟩

/-- Counterexample to C1 as stated: on `export default { a: "X", a: "Y" }`
(the same dotted key path assigned twice), the buckets hold 2 entries while
`KeyToValue` has 1 key, and the key `a` occurs in 2 distinct buckets. -/
theorem c1_duplicate_path_counterexample :
    totalEntries (parseContent sampleDupKeyStmts).valueToKeys = 2 ∧
    (parseContent sampleDupKeyStmts).keyToValue.length = 1 ∧
    bucketsContaining (parseContent sampleDupKeyStmts).valueToKeys "a" = 2 ∧
    ("a", "Y") ∈ (parseContent sampleDupKeyStmts).keyToValue := by
  decide

/-- Claim C4: traversal is total (it is defined for every tree and the
equation below holds for all of them): the state after traversing any node is
exactly the initial state extended with the fold of all accepted leaves and
with all diagnostics appended to the initial error list — a node-level
rejection only appends a diagnostic, and processing a member never prevents
the remaining sibling members from being processed. -/
theorem c4_traversal_completes_with_leaves_and_diags :
    (∀ (node : Expr) (pre : String) (acc : ParsedTranslationFile),
      parseTranslationObject node pre acc =
        { addLeaves (leavesOf node pre) acc with errors := acc.errors ++ diagsOf node pre }) ∧
    (∀ (prop : ObjectProperty) (rest : PropList) (pre : String)
        (acc : ParsedTranslationFile),
      parseProperties (.cons prop rest) pre acc =
        parseProperties rest pre (parseProperty prop pre acc)) :=
  ⟨parseTranslationObject_decomp, fun _ _ _ _ => rfl⟩

/-- Claim C5: shorthand, spread and computed-name members each append exactly
one diagnostic and leave both maps untouched, and on
`export default { a, b: "y" }` the accepted sibling `b` is still indexed
next to the single shorthand diagnostic for `a`. -/
theorem c5_unsupported_members_one_diag_each :
    (∀ (nm : String) (p : Pos) (pre : String) (acc : ParsedTranslationFile),
      parseProperty (.shorthand nm p) pre acc =
        { acc with errors := acc.errors ++
            [diagAt "Shorthand properties not supported in translation objects" p] }) ∧
    (∀ (p : Pos) (pre : String) (acc : ParsedTranslationFile),
      parseProperty (.spread p) pre acc =
        { acc with errors := acc.errors ++
            [diagAt "Spread assignments not supported in translation objects" p] }) ∧
    (∀ (value : Expr) (p : Pos) (pre : String) (acc : ParsedTranslationFile),
      parseProperty (.propAssign .computed value p) pre acc =
        { acc with errors := acc.errors ++
            [diagAt "Computed property names not supported in translation objects" p] }) ∧
    parseContent shorthandExampleStmts =
      { valueToKeys := [("y", ["b"])], keyToValue := [("b", "y")],
        errors := [{ message := "Shorthand properties not supported in translation objects",
                     line := some 1, column := some 18 }] } :=
  ⟨fun _ _ _ _ => rfl, fun _ _ _ => rfl, fun _ _ _ _ => rfl, by decide⟩

/-- Claim C2: whenever the load is fatal — no workspace folder (absent or
empty) or the resolved translation file does not exist —
`parseTranslationFile` returns empty maps and exactly one diagnostic; it
never propagates the failure (it is a total function whose catch block
produces this result). -/
theorem c2_parse_file_fails_gracefully (ws : VSCodeWorkspace) (fsm : FileSystemModel)
    (createSourceFile : String → List Statement) (filePath : String)
    (h : ws.workspaceFolders = none ∨ ws.workspaceFolders = some [] ∨
      ∃ folder rest, ws.workspaceFolders = some (folder :: rest) ∧
        lookupFile fsm (pathResolve folder.fsPath filePath) = none) :
    (parseTranslationFile ws fsm createSourceFile filePath).valueToKeys = [] ∧
    (parseTranslationFile ws fsm createSourceFile filePath).keyToValue = [] ∧
    (parseTranslationFile ws fsm createSourceFile filePath).errors.length = 1 := by
  rcases h with h | h | ⟨folder, rest, heq, hlk⟩
  · simp [parseTranslationFile, h, failedParseResult]
  · simp [parseTranslationFile, h, failedParseResult]
  · simp [parseTranslationFile, heq, hlk, failedParseResult]

/-- Witness for C2 with no workspace folder. -/
theorem c2_parse_file_fails_gracefully_witness :
    (VSCodeWorkspace.mk none).workspaceFolders = none ∧
    ((parseTranslationFile ⟨none⟩ ⟨[]⟩ (fun _ => []) "./src/i18n/en.ts").valueToKeys = [] ∧
      (parseTranslationFile ⟨none⟩ ⟨[]⟩ (fun _ => []) "./src/i18n/en.ts").keyToValue = [] ∧
      (parseTranslationFile ⟨none⟩ ⟨[]⟩ (fun _ => []) "./src/i18n/en.ts").errors.length = 1) :=
  ⟨rfl, c2_parse_file_fails_gracefully ⟨none⟩ ⟨[]⟩ (fun _ => []) "./src/i18n/en.ts"
    (Or.inl rfl)⟩

/-- Claim C3 (code bug): on
`const a = "A"; const b = "B"; export \x7b b as default \x7d;` the scan
returns the initializer of `a` — the first variable declaration with an
initializer — not the initializer of the re-exported identifier `b`: the
export-specifier check never compares the specifier against the declaration
name. -/
theorem c3_reexport_resolves_first_initializer :
    findDefaultExport reExportStmts = some (.strLit "A" (0, 10)) ∧
    (parseContent reExportStmts).keyToValue = [("", "A")] ∧
    (parseContent reExportStmts).valueToKeys = [("A", [""])] :=
  ⟨rfl, rfl, rfl⟩

/-- Counterexample to C6 as stated: on `export default { "a": 1 }` the single
member is a property assignment with a string-literal name; it produces no
leaf and no descent, yet the parse records no diagnostic at all. -/
theorem c6_silent_skip_counterexample :
    (parseContent strLitNamePropStmts).errors = [] ∧
    (parseContent strLitNamePropStmts).keyToValue = [] ∧
    (parseContent strLitNamePropStmts).valueToKeys = [] := by
  decide

/-- Claim C6 (amended): a member that produces neither a string leaf nor a
recursive descent records at least one diagnostic, EXCEPT property
assignments whose name is a string or numeric literal and method-like
members whose name is not computed: those are skipped silently, leaving the
whole state unchanged. -/
theorem c6_no_silent_skip_except_nonident_names :
    (∀ (nm : String) (value : Expr) (p : Pos) (pre : String) (acc : ParsedTranslationFile),
      parseProperty (.propAssign (.strLitName nm) value p) pre acc = acc) ∧
    (∀ (nm : String) (value : Expr) (p : Pos) (pre : String) (acc : ParsedTranslationFile),
      parseProperty (.propAssign (.numLitName nm) value p) pre acc = acc) ∧
    (∀ (nm : String) (p : Pos) (pre : String) (acc : ParsedTranslationFile),
      parseProperty (.methodProp (.ident nm) p) pre acc = acc) ∧
    (∀ (nm : String) (p : Pos) (pre : String) (acc : ParsedTranslationFile),
      parseProperty (.methodProp (.strLitName nm) p) pre acc = acc) ∧
    (∀ (nm : String) (p : Pos) (pre : String) (acc : ParsedTranslationFile),
      parseProperty (.methodProp (.numLitName nm) p) pre acc = acc) ∧
    (∀ (key : String) (kind : Nat) (vp p : Pos) (pre : String) (acc : ParsedTranslationFile),
      (parseProperty (.propAssign (.ident key) (.otherExpr kind vp) p) pre acc).errors.length =
        acc.errors.length + 1) ∧
    (∀ (nm : String) (p : Pos) (pre : String) (acc : ParsedTranslationFile),
      (parseProperty (.shorthand nm p) pre acc).errors.length = acc.errors.length + 1) ∧
    (∀ (p : Pos) (pre : String) (acc : ParsedTranslationFile),
      (parseProperty (.spread p) pre acc).errors.length = acc.errors.length + 1) ∧
    (∀ (value : Expr) (p : Pos) (pre : String) (acc : ParsedTranslationFile),
      (parseProperty (.propAssign .computed value p) pre acc).errors.length =
        acc.errors.length + 1) ∧
    (∀ (p : Pos) (pre : String) (acc : ParsedTranslationFile),
      (parseProperty (.methodProp .computed p) pre acc).errors.length =
        acc.errors.length + 1) := by
  refine ⟨fun _ _ _ _ _ => rfl, fun _ _ _ _ _ => rfl, fun _ _ _ _ => rfl,
    fun _ _ _ _ => rfl, fun _ _ _ _ => rfl, ?_, ?_, ?_, ?_, ?_⟩ <;>
    intros <;> simp [parseProperty]

/-- Counterexample to C7 as stated: on the catalog of spec scenario 2 the
duplicate-value warning names the value `Hi` but lists neither of its two
keys — no warning contains `common.hello` or `common.bye`. -/
theorem c7_keys_not_listed_counterexample :
    (validateTranslationFile dupValueParsed).warnings =
      ["Found 1 duplicate translation values: \"Hi\""] ∧
    ("Hi", ["common.hello", "common.bye"]) ∈ dupValueParsed.valueToKeys ∧
    (validateTranslationFile dupValueParsed).warnings.all
      (fun w => !(strContains w "common.hello")) = true ∧
    (validateTranslationFile dupValueParsed).warnings.all
      (fun w => !(strContains w "common.bye")) = true := by
  decide

/-- Claim C7 (amended): `validateTranslationFile` produces a single
duplicate-value warning built from exactly the values whose bucket has more
than one key (listing the count and the quoted values, but not their keys):
a single-key value never appears among the duplicate entries and a value
with two or more keys always does. -/
theorem c7_duplicate_value_warning (parsed : ParsedTranslationFile) :
    (validateTranslationFile parsed).warnings =
      duplicateValueWarnings parsed ++ emptyValueWarnings parsed ++ longValueWarnings parsed ∧
    duplicateValueWarnings parsed =
      (if (duplicateValueEntries parsed).length > 0 then
        ["Found " ++ toString (duplicateValueEntries parsed).length ++
          " duplicate translation values: " ++ quoteJoin (duplicateValueEntries parsed)]
      else []) ∧
    ∀ entry ∈ parsed.valueToKeys,
      (entry ∈ duplicateValueEntries parsed ↔ entry.2.length > 1) := by
  refine ⟨rfl, rfl, ?_⟩
  intro entry hmem
  simp [duplicateValueEntries, List.mem_filter, hmem]

/-- Witness for C7 (amended) at the catalog of spec scenario 2. -/
theorem c7_duplicate_value_warning_witness :
    (validateTranslationFile dupValueParsed).warnings =
      duplicateValueWarnings dupValueParsed ++ emptyValueWarnings dupValueParsed ++
        longValueWarnings dupValueParsed ∧
    duplicateValueWarnings dupValueParsed =
      (if (duplicateValueEntries dupValueParsed).length > 0 then
        ["Found " ++ toString (duplicateValueEntries dupValueParsed).length ++
          " duplicate translation values: " ++ quoteJoin (duplicateValueEntries dupValueParsed)]
      else []) ∧
    ∀ entry ∈ dupValueParsed.valueToKeys,
      (entry ∈ duplicateValueEntries dupValueParsed ↔ entry.2.length > 1) :=
  c7_duplicate_value_warning dupValueParsed

/-- Counterexample to C8 as stated: with a previously published map
`X -> [a]` and a reload that fails (no workspace folder), the change handler
publishes the empty map — the previous map is not retained. -/
theorem c8_failed_reload_counterexample :
    onTranslationFileChange [("X", ["a"])] ⟨none⟩ ⟨[]⟩ (fun _ => none) "./src/i18n/en.ts" =
      [] ∧
    ¬(onTranslationFileChange [("X", ["a"])] ⟨none⟩ ⟨[]⟩ (fun _ => none) "./src/i18n/en.ts" =
      [("X", ["a"])]) :=
  ⟨rfl, by decide⟩

/-- Claim C8 (amended): whenever a change notification triggers a reload and
that reload fails (no workspace folder, file not found, or unparsable
content), the published translation map is replaced by the empty map — the
previously published map is never retained and never partially overwritten. -/
theorem c8_failed_reload_publishes_empty (previousMap : TranslationMap)
    (ws : VSCodeWorkspace) (fsm : FileSystemModel)
    (extractDefaultObject : String → Option JSValue) (filePath : String)
    (h : ws.workspaceFolders = none ∨ ws.workspaceFolders = some [] ∨
      (∃ folder rest, ws.workspaceFolders = some (folder :: rest) ∧
        lookupFile fsm (pathResolve folder.fsPath filePath) = none) ∨
      (∃ folder rest content, ws.workspaceFolders = some (folder :: rest) ∧
        lookupFile fsm (pathResolve folder.fsPath filePath) = some content ∧
        extractDefaultObject content = none)) :
    onTranslationFileChange previousMap ws fsm extractDefaultObject filePath = [] := by
  rcases h with h | h | ⟨folder, rest, heq, hlk⟩ | ⟨folder, rest, content, heq, hlk, hex⟩
  · simp [onTranslationFileChange, loadTranslations, h]
  · simp [onTranslationFileChange, loadTranslations, h]
  · simp [onTranslationFileChange, loadTranslations, heq, hlk]
  · simp [onTranslationFileChange, loadTranslations, heq, hlk, hex]

/-- Witness for C8 (amended) with no workspace folder. -/
theorem c8_failed_reload_publishes_empty_witness :
    (VSCodeWorkspace.mk none).workspaceFolders = none ∧
    onTranslationFileChange [("X", ["a"])] ⟨none⟩ ⟨[]⟩ (fun _ => none) "./src/i18n/en.ts" =
      [] :=
  ⟨rfl, c8_failed_reload_publishes_empty [("X", ["a"])] ⟨none⟩ ⟨[]⟩ (fun _ => none)
    "./src/i18n/en.ts" (Or.inl rfl)⟩

/-- Claim C9: parsing is deterministic — two runs of `parseContent` on the
syntax trees of identical source text (the grammar reader is a function, so
identical text yields identical trees) return the same key map, the same
value map with the same per-bucket ordering, and the same error list in the
same order. -/
theorem c9_parse_deterministic (stmts1 stmts2 : List Statement) (h : stmts1 = stmts2) :
    (parseContent stmts1).keyToValue = (parseContent stmts2).keyToValue ∧
    (parseContent stmts1).valueToKeys = (parseContent stmts2).valueToKeys ∧
    (parseContent stmts1).errors = (parseContent stmts2).errors := by
  subst h
  exact ⟨rfl, rfl, rfl⟩

/-- Witness for C9 at `export default { a: "X" }`. -/
theorem c9_parse_deterministic_witness :
    sampleDistinctStmts = sampleDistinctStmts ∧
    ((parseContent sampleDistinctStmts).keyToValue =
        (parseContent sampleDistinctStmts).keyToValue ∧
      (parseContent sampleDistinctStmts).valueToKeys =
        (parseContent sampleDistinctStmts).valueToKeys ∧
      (parseContent sampleDistinctStmts).errors = (parseContent sampleDistinctStmts).errors) :=
  ⟨rfl, c9_parse_deterministic sampleDistinctStmts sampleDistinctStmts rfl⟩

/-- Claim C10: when the default-exported expression is a bare string literal,
the parse accepts it as a single leaf at the empty path: `keyToValue` maps
`""` to the text, `valueToKeys` maps the text to `[""]`, and no diagnostic is
emitted. -/
theorem c10_bare_string_default_export (text : String) (p : Pos) :
    parseContent [.exportAssignment (.strLit text p)] =
      { valueToKeys := [(text, [""])], keyToValue := [("", text)], errors := [] } := rfl

end I18nSearch
